import Mathlib

/-!
Verification of the retrieval subsystem of the divine_data_infra repository.

The data model is embedded from backend/app/models.py, the fusion
configuration and its validation from backend/app/utils/manifest.py, and
the graph parallels endpoints from backend/app/routers/graph.py.  The
fusion engine and the retrieval orchestrator are declared and consumed by
backend/app/dependencies/retrieval.py and backend/app/routers/retrieval.py
but their module (backend/app/services/retrieval_orchestrator.py) is not
part of the sources given here, so those two components are modelled from
the specification, as indicated in their doc comments.

Python floats are modelled as exact rationals, Python ints as integers
(natural numbers where they are counts), fallible code as Except values.
-/

namespace DivineData

/-! Part 1: data model, embedded from backend/app/models.py. -/

/-- Single search result with relevance score (models.py, SearchHit). -/
structure SearchHit where
  verse_id : String
  text : String
  score : ℚ
deriving DecidableEq

/-- Semantic vector search query parameters (models.py, VectorQuery). -/
structure VectorQuery where
  embedding : List ℚ
  model : String
  dim : ℤ
  translation : Option String
  top_k : ℤ
deriving DecidableEq

/-- Detail string raised by VectorQuery.validate_embedding_length. -/
def dimMismatchDetail : String := "embedding length does not match dim"

/-- Model validator of VectorQuery (models.py): the embedding length must
equal the declared dimensionality, otherwise a ValueError is raised. -/
def VectorQuery.validate_embedding_length (vq : VectorQuery) :
    Except String VectorQuery :=
  if (vq.embedding.length : ℤ) = vq.dim then Except.ok vq
  else Except.error dimMismatchDetail

/-- Hybrid search query extended with graph expansion toggles
(models.py, HybridQuery and RetrievalQuery). -/
structure RetrievalQuery where
  q : Option String
  embedding : Option (List ℚ)
  model : String
  dim : ℤ
  vector_k : ℤ
  fts_k : ℤ
  k_rrf : ℤ
  top_k : ℤ
  translation : Option String
  include_parallels : Bool
  parallel_limit : ℤ
deriving DecidableEq

/-- Range constraints declared on the pydantic fields of HybridQuery and
RetrievalQuery (models.py, Field ge and le bounds). -/
def RetrievalQuery.fieldBounds (q : RetrievalQuery) : Prop :=
  1 ≤ q.vector_k ∧ q.vector_k ≤ 500 ∧
  1 ≤ q.fts_k ∧ q.fts_k ≤ 500 ∧
  1 ≤ q.k_rrf ∧ q.k_rrf ≤ 1000 ∧
  1 ≤ q.top_k ∧ q.top_k ≤ 500 ∧
  0 ≤ q.parallel_limit ∧ q.parallel_limit ≤ 50

/-- Single verse rendition in a specific translation (models.py, Rendition). -/
structure Rendition where
  verse_id : String
  translation : String
  reference : String
  text : String
deriving DecidableEq

/-- Graph expansion for a verse including parallel renditions
(models.py, GraphExpansion). -/
structure GraphExpansion where
  verse_id : String
  cvk : Option String
  renditions : List Rendition
deriving DecidableEq

/-- Metadata describing graph expansion parameters
(models.py, GraphExpansionInfo). -/
structure GraphExpansionInfo where
  enabled : Bool
  max_per_hit : ℤ
  weight : ℚ
  applied : Bool
deriving DecidableEq

/-- Fusion metadata returned with retrieval responses (models.py, FusionInfo). -/
structure FusionInfo where
  method : String
  k : ℤ
  vector_k : ℤ
  fts_k : ℤ
  graph_expansion : GraphExpansionInfo
deriving DecidableEq

/-- Combined retrieval result with optional graph expansion
(models.py, RetrievalHit). -/
structure RetrievalHit where
  hit : SearchHit
  parallels : Option GraphExpansion
deriving DecidableEq

/-- Response envelope for orchestrated retrieval (models.py, RetrievalResponse). -/
structure RetrievalResponse where
  total : ℕ
  items : List RetrievalHit
  fusion : FusionInfo
deriving DecidableEq

/-- Parallel verses across translations (models.py, ParallelsResponse). -/
structure ParallelsResponse where
  cvk : String
  renditions : List Rendition
deriving DecidableEq

/-! Part 2: fusion configuration, embedded from backend/app/utils/manifest.py. -/

/-- Fusion method literal of FusionConfig.method (manifest.py). -/
inductive FusionMethod
  | rrf
  | weighted_sum
deriving DecidableEq

/-- String spelled in the manifest for each fusion method. -/
def fusionMethodName : FusionMethod → String
  | FusionMethod.rrf => "rrf"
  | FusionMethod.weighted_sum => "weighted_sum"

/-- Graph-based expansion options sourced from the manifest
(manifest.py, GraphExpansionConfig). -/
structure GraphExpansionConfig where
  enabled : Bool
  max_per_hit : ℤ
  weight : ℚ
deriving DecidableEq

/-- Fusion strategy configuration for hybrid retrieval
(manifest.py, FusionConfig). -/
structure FusionConfig where
  method : FusionMethod
  k : ℤ
  weight_vector : Option (List (String × ℚ))
  graph_expansion : GraphExpansionConfig
deriving DecidableEq

/-- Hybrid retrieval configuration from the manifest (manifest.py, HybridConfig). -/
structure HybridConfig where
  vector_k : ℤ
  fts_k : ℤ
  fusion : FusionConfig
deriving DecidableEq

/-- Minimal manifest representation for retrieval configuration
(manifest.py, ManifestConfig wrapping IndexPlanConfig). -/
structure ManifestConfig where
  hybrid : HybridConfig
deriving DecidableEq

/-- Raw graph expansion section of a manifest document before validation. -/
structure RawGraphExpansion where
  enabled : Bool
  max_per_hit : ℤ
  weight : ℚ
deriving DecidableEq

/-- Raw fusion section of a manifest document before validation. -/
structure RawFusion where
  method : String
  k : ℤ
  graph_expansion : RawGraphExpansion
deriving DecidableEq

/-- Raw hybrid section of a manifest document before validation. -/
structure RawHybrid where
  vector_k : ℤ
  fts_k : ℤ
  fusion : RawFusion
deriving DecidableEq

/-- Raw manifest document (the index_plan.hybrid subtree read by the API). -/
structure RawManifest where
  hybrid : RawHybrid
deriving DecidableEq

/-- Pydantic Literal check on FusionConfig.method (manifest.py): only the
strings rrf and weighted_sum are accepted. -/
def parseMethod : String → Except String FusionMethod
  | "rrf" => Except.ok FusionMethod.rrf
  | "weighted_sum" => Except.ok FusionMethod.weighted_sum
  | _ => Except.error ("unknown fusion method")

/-- Pydantic field checks of GraphExpansionConfig (manifest.py):
max_per_hit in 0..50 and weight nonnegative. -/
def validateGraphExpansion (r : RawGraphExpansion) :
    Except String GraphExpansionConfig :=
  if 0 ≤ r.max_per_hit ∧ r.max_per_hit ≤ 50 then
    if 0 ≤ r.weight then Except.ok ⟨r.enabled, r.max_per_hit, r.weight⟩
    else Except.error ("weight out of range")
  else Except.error ("max_per_hit out of range")

/-- Pydantic checks of FusionConfig (manifest.py): known method literal,
k at least 1, and a valid nested graph expansion sub-config.  The optional
weight_vector field has no constraint and defaults to none. -/
def validateFusion (r : RawFusion) : Except String FusionConfig :=
  match parseMethod r.method with
  | Except.error e => Except.error e
  | Except.ok m =>
    if 1 ≤ r.k then
      (validateGraphExpansion r.graph_expansion).map
        (fun ge => ⟨m, r.k, none, ge⟩)
    else Except.error ("k out of range")

/-- Pydantic checks of HybridConfig (manifest.py): vector_k and fts_k at
least 1, and a valid nested fusion config. -/
def validateHybrid (r : RawHybrid) : Except String HybridConfig :=
  if 1 ≤ r.vector_k then
    if 1 ≤ r.fts_k then
      (validateFusion r.fusion).map (fun f => ⟨r.vector_k, r.fts_k, f⟩)
    else Except.error ("fts_k out of range")
  else Except.error ("vector_k out of range")

/-- Schema validation of a whole manifest document
(manifest.py, ManifestConfig.model_validate). -/
def validateManifest (r : RawManifest) : Except String ManifestConfig :=
  (validateHybrid r.hybrid).map (fun h => ⟨h⟩)

/-- Process-wide state of the lru_cache(maxsize=1) guarding load_manifest
(manifest.py), together with a count of how many times the manifest body
was actually parsed and validated. -/
structure ProcessState where
  cache : Option ManifestConfig
  validations : ℕ
deriving DecidableEq

/-- Cached manifest loader (manifest.py, load_manifest): on a cache hit the
stored config is returned unchanged; on a miss the document is validated,
and only a successful result is stored in the cache, matching
functools.lru_cache which never caches a raised exception. -/
def load_manifest (raw : RawManifest) (s : ProcessState) :
    Except String ManifestConfig × ProcessState :=
  match s.cache with
  | some cfg => (Except.ok cfg, s)
  | none =>
    match validateManifest raw with
    | Except.ok cfg => (Except.ok cfg, ⟨some cfg, s.validations + 1⟩)
    | Except.error e => (Except.error e, ⟨none, s.validations + 1⟩)

/-- Modelled from the spec: the application startup hook is not among the
given sources (only its collaborators manifest.py and
dependencies/retrieval.py are), and the spec states that the manifest is
read once at process startup and that schema violations abort startup.
Startup therefore performs the first load_manifest call on an empty cache
and fails if and only if that call fails. -/
def startupProcess (raw : RawManifest) : Except String ProcessState :=
  match load_manifest raw ⟨none, 0⟩ with
  | (Except.ok _, s) => Except.ok s
  | (Except.error e, _) => Except.error e

/-- Per-request configuration resolution: each retrieval request runs
get_retrieval_orchestrator (dependencies/retrieval.py), which resolves the
fusion strategy through the cached load_manifest.  handleRequests raw n s
runs n consecutive requests and records each request's view of the
configuration. -/
def handleRequests (raw : RawManifest) :
    ℕ → ProcessState → List (Except String ManifestConfig) × ProcessState
  | 0, s => ([], s)
  | Nat.succ n, s =>
    let step := load_manifest raw s
    let rest := handleRequests raw n step.2
    (step.1 :: rest.1, rest.2)

/-! Part 3: the fusion engine.  The module implementing it
(backend/app/services/retrieval_orchestrator.py) is not among the given
sources, so it is modelled from the specification, section 4.1. -/

/-- Branch of hybrid retrieval feeding the fusion engine. -/
inductive Branch
  | lexical
  | vector
deriving DecidableEq

/-- Key under which a branch weight is looked up in
FusionConfig.weight_vector. -/
def branchName : Branch → String
  | Branch.lexical => "lexical"
  | Branch.vector => "vector"

/-- Modelled from the spec: per-branch weight for weighted-sum fusion,
taken from FusionConfig.weight_vector with a default of 1 for each branch. -/
def branchWeight (cfg : FusionConfig) (branch : Branch) : ℚ :=
  match cfg.weight_vector with
  | none => 1
  | some ws =>
    match ws.lookup (branchName branch) with
    | some w => w
    | none => 1

/-- Modelled from the spec: contribution of one branch hit at a 1-based
rank.  Under rrf it is 1 / (k + rank); under weighted_sum it is the branch
weight times the hit's raw branch score. -/
def contribution (cfg : FusionConfig) (branch : Branch) (h : SearchHit)
    (rank : ℕ) : ℚ :=
  match cfg.method with
  | FusionMethod.rrf => 1 / ((cfg.k : ℚ) + rank)
  | FusionMethod.weighted_sum => branchWeight cfg branch * h.score

/-- Accumulator entry of the fusion table: one candidate identifier with
its fused score so far and the 1-based rank of its first occurrence in
each branch. -/
structure FusedEntry where
  verse_id : String
  text : String
  score : ℚ
  lexRank : Option ℕ
  vecRank : Option ℕ
deriving DecidableEq

/-- Record the 1-based rank of an entry in a branch, keeping the rank of
the first occurrence if one was already recorded. -/
def setRank (e : FusedEntry) (branch : Branch) (rank : ℕ) : FusedEntry :=
  match branch with
  | Branch.lexical =>
    { e with lexRank := match e.lexRank with
                        | some r => some r
                        | none => some rank }
  | Branch.vector =>
    { e with vecRank := match e.vecRank with
                        | some r => some r
                        | none => some rank }

/-- Fresh fusion-table entry for an identifier first discovered in the
given branch at the given rank with the given contribution. -/
def newEntry (h : SearchHit) (branch : Branch) (rank : ℕ) (c : ℚ) :
    FusedEntry :=
  setRank ⟨h.verse_id, h.text, c, none, none⟩ branch rank

/-- Modelled from the spec: add one branch hit's contribution to the
fusion table, keyed by identifier.  An identifier already present
accumulates the contribution onto its fused score; a new identifier is
appended, so the table keeps stable discovery order. -/
def addContribution : List FusedEntry → SearchHit → Branch → ℕ → ℚ →
    List FusedEntry
  | [], h, branch, rank, c => [newEntry h branch rank c]
  | e :: rest, h, branch, rank, c =>
    if e.verse_id = h.verse_id then
      setRank { e with score := e.score + c } branch rank :: rest
    else
      e :: addContribution rest h branch rank c

/-- Modelled from the spec: walk one branch's rank-ordered hit list,
adding each hit's contribution at its 1-based rank. -/
def accumBranch (cfg : FusionConfig) (branch : Branch) :
    List SearchHit → ℕ → List FusedEntry → List FusedEntry
  | [], _, acc => acc
  | h :: t, rank, acc =>
    accumBranch cfg branch t (rank + 1)
      (addContribution acc h branch rank (contribution cfg branch h rank))

/-- Modelled from the spec: the fusion table of both branches, lexical
walked first, both starting at rank 1. -/
def fuseTable (lexical vector : List SearchHit) (cfg : FusionConfig) :
    List FusedEntry :=
  accumBranch cfg Branch.vector vector 1
    (accumBranch cfg Branch.lexical lexical 1 [])

/-- Attach the 0-based discovery index to each fusion-table entry. -/
def attachIdx : List FusedEntry → ℕ → List (FusedEntry × ℕ)
  | [], _ => []
  | e :: t, i => (e, i) :: attachIdx t (i + 1)

/-- Modelled from the spec: the branch whose configured weight is higher
is the priority branch for tie-breaking; with equal weights the lexical
branch, listed first, has priority. -/
def priorityBranch (cfg : FusionConfig) : Branch :=
  if branchWeight cfg Branch.lexical < branchWeight cfg Branch.vector then
    Branch.vector
  else Branch.lexical

/-- Rank of an entry in the priority branch, falling back to its rank in
the other branch when it is absent there. -/
def priorityRank (cfg : FusionConfig) (e : FusedEntry) : ℕ :=
  match priorityBranch cfg with
  | Branch.lexical => (e.lexRank.getD (e.vecRank.getD 0))
  | Branch.vector => (e.vecRank.getD (e.lexRank.getD 0))

/-- Modelled from the spec: the sort key of a fusion-table entry, compared
lexicographically: higher fused score first, then presence in both
branches over one branch, then better rank in the priority branch, then
stable discovery order. -/
def sortKey (cfg : FusionConfig) (p : FusedEntry × ℕ) :
    ℚ ×ₗ (ℕ ×ₗ (ℕ ×ₗ ℕ)) :=
  toLex (-p.1.score,
    toLex ((if p.1.lexRank.isSome && p.1.vecRank.isSome then 0 else 1),
      toLex (priorityRank cfg p.1, p.2)))

/-- Weak ordering of fusion-table entries by their sort key. -/
def entryLe (cfg : FusionConfig) (a b : FusedEntry × ℕ) : Prop :=
  sortKey cfg a ≤ sortKey cfg b

/-- Strict ordering of fusion-table entries by their sort key. -/
def entryLt (cfg : FusionConfig) (a b : FusedEntry × ℕ) : Prop :=
  sortKey cfg a < sortKey cfg b

instance (cfg : FusionConfig) : DecidableRel (entryLe cfg) :=
  fun a b => inferInstanceAs (Decidable (sortKey cfg a ≤ sortKey cfg b))

instance (cfg : FusionConfig) : DecidableRel (entryLt cfg) :=
  fun a b => inferInstanceAs (Decidable (sortKey cfg a < sortKey cfg b))

instance (cfg : FusionConfig) : IsTotal (FusedEntry × ℕ) (entryLe cfg) :=
  ⟨fun a b => le_total (sortKey cfg a) (sortKey cfg b)⟩

instance (cfg : FusionConfig) : IsTrans (FusedEntry × ℕ) (entryLe cfg) :=
  ⟨fun _ _ _ hab hbc => le_trans hab hbc⟩

instance (cfg : FusionConfig) : IsAntisymm (FusedEntry × ℕ) (entryLt cfg) :=
  ⟨fun _ _ hab hba => absurd hba (lt_asymm hab)⟩

/-- Modelled from the spec: the fusion table with discovery indices,
sorted by the deterministic sort key. -/
def fuseEntries (lexical vector : List SearchHit) (cfg : FusionConfig) :
    List (FusedEntry × ℕ) :=
  List.insertionSort (entryLe cfg) (attachIdx (fuseTable lexical vector cfg) 0)

/-- Publish a sorted fusion-table entry as a scored hit. -/
def toSearchHit (p : FusedEntry × ℕ) : SearchHit :=
  ⟨p.1.verse_id, p.1.text, p.1.score⟩

/-- Modelled from the spec, section 4.1: fuse two rank-ordered branch
result lists into one ranked list, deduplicated by identifier, sorted
descending by fused score with deterministic tie-breaks, truncated to
top_k. -/
def fuse (lexical vector : List SearchHit) (cfg : FusionConfig)
    (top_k : ℕ) : List SearchHit :=
  ((fuseEntries lexical vector cfg).take top_k).map toSearchHit

/-- Position of the first occurrence of an identifier in a branch list,
1-based; none when the identifier is absent from the branch. -/
def rankIn : List SearchHit → String → Option ℕ
  | [], _ => none
  | h :: t, id => if h.verse_id = id then some 1 else (rankIn t id).map (· + 1)

/-- Reciprocal-rank contribution of one branch to an identifier: 1 / (k +
rank) at the identifier's 1-based rank in the branch, 0 when absent. -/
def rrfContribution (k : ℚ) (hits : List SearchHit) (id : String) : ℚ :=
  match rankIn hits id with
  | some r => 1 / (k + r)
  | none => 0

/-! Part 4: the retrieval orchestrator.  Its module
(backend/app/services/retrieval_orchestrator.py) is not among the given
sources; it is modelled from the specification, sections 4.2 and 7,
together with the pieces that are in the sources: the router
backend/app/routers/retrieval.py, which maps a ValueError raised by
retrieve to an HTTP 400 response, and the VectorQuery embedding-length
validator of backend/app/models.py. -/

/-- Call issued to an external provider during one retrieval request. -/
inductive ProviderCall
  | lexical
  | vector
  | graph (verse_id : String)
deriving DecidableEq

/-- Error taxonomy of the orchestrator: InvalidQuery is a client fault
raised as a ValueError, ProviderUnavailable a server fault. -/
inductive RetrieveError
  | invalidQuery (detail : String)
  | providerUnavailable (detail : String)
deriving DecidableEq

/-- Structured HTTP error as raised by the FastAPI routers. -/
structure HTTPException where
  status_code : ℤ
  detail : String
deriving DecidableEq

/-- Detail string of the missing-signal validation error. -/
def noSignalDetail : String := "either q or embedding must be provided"

/-- Marker appended to FusionInfo.method when fusion was degraded. -/
def degradedSuffix : String := "+degraded"

/-- View of a RetrievalQuery's vector branch as a VectorQuery
(models.py field correspondence). -/
def RetrievalQuery.toVectorQuery (q : RetrievalQuery) (e : List ℚ) :
    VectorQuery :=
  ⟨e, q.model, q.dim, q.translation, q.vector_k⟩

/-- Modelled from the spec: query validation performed by the orchestrator
before any provider is invoked.  At least one of free text or embedding
must be present, and a supplied embedding must pass the source
VectorQuery.validate_embedding_length check. -/
def validateQuery (q : RetrievalQuery) : Except String Unit :=
  match q.q, q.embedding with
  | none, none => Except.error noSignalDetail
  | _, some e =>
    ((q.toVectorQuery e).validate_embedding_length).map (fun _ => ())
  | some _, none => Except.ok ()

/-- Branch provider calls dispatched for a query: text dispatches the
lexical branch, an embedding dispatches the vector branch. -/
def branchCalls (q : RetrievalQuery) : List ProviderCall :=
  (if q.q.isSome then [ProviderCall.lexical] else []) ++
    (if q.embedding.isSome then [ProviderCall.vector] else [])

/-- Hits of a dispatched branch whose provider call succeeded. -/
def survived : Option (Except String (List SearchHit)) →
    Option (List SearchHit)
  | some (Except.ok hits) => some hits
  | _ => none

/-- Whether a dispatched branch's provider call failed. -/
def branchFailed : Option (Except String (List SearchHit)) → Bool
  | some (Except.error _) => true
  | _ => false

/-- Outcome of one orchestrated retrieval: the result plus the provider
calls that were issued while computing it. -/
structure RetrieveTrace where
  result : Except RetrieveError RetrievalResponse
  calls : List ProviderCall

/-- Modelled from the spec, sections 4.2 and 7: the orchestrator validates
the query, dispatches only the branches for which the query supplies
input, fails with ProviderUnavailable only when no dispatched branch
survives, otherwise fuses the surviving branches, optionally expands each
fused hit through the graph provider (a per-hit failure degrades to no
expansion), and assembles the response.  Degraded fusion is annotated in
FusionInfo by appending degradedSuffix to the method string, the only
free-form field the source FusionInfo schema offers. -/
def retrieve (q : RetrievalQuery) (cfg : HybridConfig)
    (lexP vecP : Except String (List SearchHit))
    (expandP : String → Except String GraphExpansion) : RetrieveTrace :=
  match validateQuery q with
  | Except.error d => ⟨Except.error (RetrieveError.invalidQuery d), []⟩
  | Except.ok _ =>
    let lexOut := if q.q.isSome then some lexP else none
    let vecOut := if q.embedding.isSome then some vecP else none
    match survived lexOut, survived vecOut with
    | none, none =>
      ⟨Except.error
        (RetrieveError.providerUnavailable ("all retrieval branches failed")),
        branchCalls q⟩
    | lexHits, vecHits =>
      let degraded := branchFailed lexOut || branchFailed vecOut
      let fused :=
        fuse (lexHits.getD []) (vecHits.getD []) cfg.fusion q.top_k.toNat
      let applied := cfg.fusion.graph_expansion.enabled && q.include_parallels
      let items := fused.map (fun h =>
        RetrievalHit.mk h
          (if applied then (expandP h.verse_id).toOption else none))
      let graphCalls :=
        if applied then fused.map (fun h => ProviderCall.graph h.verse_id)
        else []
      let info : FusionInfo :=
        ⟨fusionMethodName cfg.fusion.method ++
            (if degraded then degradedSuffix else ""),
          cfg.fusion.k, cfg.vector_k, cfg.fts_k,
          ⟨cfg.fusion.graph_expansion.enabled,
            cfg.fusion.graph_expansion.max_per_hit,
            cfg.fusion.graph_expansion.weight, applied⟩⟩
      ⟨Except.ok ⟨items.length, items, info⟩, branchCalls q ++ graphCalls⟩

/-- Router endpoint (routers/retrieval.py, orchestrated_retrieval): a
ValueError raised by retrieve, here the InvalidQuery condition, becomes an
HTTP 400 client error; any other failure propagates as a server fault. -/
def toHTTPError : RetrieveError → HTTPException
  | RetrieveError.invalidQuery d => ⟨400, d⟩
  | RetrieveError.providerUnavailable d => ⟨500, d⟩

/-- HTTP-level result of the retrieval endpoint. -/
def orchestrated_retrieval (q : RetrievalQuery) (cfg : HybridConfig)
    (lexP vecP : Except String (List SearchHit))
    (expandP : String → Except String GraphExpansion) :
    Except HTTPException RetrievalResponse :=
  (retrieve q cfg lexP vecP expandP).result.mapError toHTTPError

/-- Graph expansion provider whose lookup for one specific identifier is
replaced by a failure. -/
def overrideExpand (expandP : String → Except String GraphExpansion)
    (bad : String) (err : String) : String → Except String GraphExpansion :=
  fun id => if id = bad then Except.error err else expandP id

/-! Part 5: graph parallels endpoints, embedded from
backend/app/routers/graph.py.  The Cypher queries are embedded by their
declared semantics: MATCH as filtering over the rows of the joined graph
pattern, ORDER BY translation as sorting by the translation label. -/

/-- One row of the joined graph pattern traversed by both Cypher queries:
a verse that is a RENDITION_OF a canonical verse, reached from its
translation. -/
structure GraphRecord where
  cvk : String
  verse_id : String
  translation : String
  reference : String
  text : String
deriving DecidableEq

/-- Code-point key under which ORDER BY compares translation labels. -/
def strKey (s : String) : List ℕ := s.data.map Char.toNat

/-- Ordering of graph records by translation label, as produced by
ORDER BY translation. -/
def recLe (a b : GraphRecord) : Prop := strKey a.translation ≤ strKey b.translation

instance : DecidableRel recLe :=
  fun a b =>
    inferInstanceAs (Decidable (strKey a.translation ≤ strKey b.translation))

instance : IsTotal GraphRecord recLe :=
  ⟨fun a b => le_total (strKey a.translation) (strKey b.translation)⟩

instance : IsTrans GraphRecord recLe :=
  ⟨fun _ _ _ hab hbc => le_trans hab hbc⟩

/-- Rows matched by the parallels_by_verse Cypher query: all renditions of
every canonical verse the given verse is linked to, sorted by translation
label (ORDER BY translation). -/
def parallelsByVerseRecords (rows : List GraphRecord) (vid : String) :
    List GraphRecord :=
  let cvks := (rows.filter (fun r => r.verse_id == vid)).map GraphRecord.cvk
  List.insertionSort recLe (rows.filter (fun r => cvks.contains r.cvk))

/-- Rows matched by the renditions_by_cvk Cypher query: all renditions
linked to the given canonical verse key, sorted by translation label. -/
def renditionsByCvkRecords (rows : List GraphRecord) (cvk : String) :
    List GraphRecord :=
  List.insertionSort recLe (rows.filter (fun r => r.cvk == cvk))

/-- Rendition payload built from one query row (graph.py list
comprehension over records). -/
def recToRendition (r : GraphRecord) : Rendition :=
  ⟨r.verse_id, r.translation, r.reference, r.text⟩

/-- Endpoint GET /graph/parallels/verse_id (graph.py, parallels_by_verse):
404 when the query returns no records, otherwise the response takes its
cvk from the first record and one rendition per record in query order. -/
def parallels_by_verse (rows : List GraphRecord) (vid : String) :
    Except HTTPException ParallelsResponse :=
  match parallelsByVerseRecords rows vid with
  | [] => Except.error ⟨404, "verse not found or not linked in graph"⟩
  | r0 :: rest =>
    Except.ok ⟨r0.cvk, (r0 :: rest).map recToRendition⟩

/-- Endpoint GET /graph/cv/cvk/renditions (graph.py, renditions_by_cvk):
404 when the query returns no records, otherwise the response echoes the
requested cvk with one rendition per record in query order. -/
def renditions_by_cvk (rows : List GraphRecord) (cvk : String) :
    Except HTTPException ParallelsResponse :=
  match renditionsByCvkRecords rows cvk with
  | [] => Except.error ⟨404, "cvk not found in graph"⟩
  | r0 :: rest =>
    Except.ok ⟨cvk, (r0 :: rest).map recToRendition⟩

/-! Part 6: derived definitions and concrete witness inputs. -/

/-- Invalid raw manifest used to witness the startup failure branch. -/
def rawManifestBad : RawManifest :=
  ⟨⟨50, 50, ⟨"bm25", 60, ⟨false, 0, 0⟩⟩⟩⟩

/-- Valid raw manifest used to witness the request-time branch. -/
def rawManifestGood : RawManifest :=
  ⟨⟨50, 50, ⟨"rrf", 60, ⟨true, 3, 1⟩⟩⟩⟩

/-- Hybrid configuration fixed for the orchestrator witnesses. -/
def cfgEx : HybridConfig :=
  ⟨50, 50, ⟨FusionMethod.rrf, 60, none, ⟨false, 0, 0⟩⟩⟩

/-- Lexical provider outcome fixed for the orchestrator witnesses. -/
def lexPEx : Except String (List SearchHit) := Except.ok []

/-- Vector provider outcome fixed for the orchestrator witnesses. -/
def vecPEx : Except String (List SearchHit) := Except.ok []

/-- Graph expansion provider fixed for the orchestrator witnesses. -/
def expandPEx : String → Except String GraphExpansion :=
  fun _ => Except.ok ⟨"", none, []⟩

/-- Query with a length-5 embedding declared as dimension 768, used to
witness the dimensionality validation. -/
def queryDimMismatch : RetrievalQuery :=
  ⟨none, some [0, 0, 0, 0, 0], "embeddinggemma", 768, 50, 50, 60, 50,
    none, true, 3⟩

/-- Query supplying neither free text nor an embedding. -/
def queryNoSignal : RetrievalQuery :=
  ⟨none, none, "embeddinggemma", 768, 50, 50, 60, 50, none, true, 3⟩

/-- Hybrid query with text and a dimension-2 embedding used to witness
branch-failure semantics. -/
def queryHybrid : RetrievalQuery :=
  ⟨some "love", some [0, 0], "embeddinggemma", 2, 50, 50, 60, 50, none,
    true, 3⟩

/-- Vector-only query with a dimension-2 embedding used to witness
branch-failure semantics. -/
def queryVectorOnly : RetrievalQuery :=
  ⟨none, some [0, 0], "embeddinggemma", 2, 50, 50, 60, 50, none, true, 3⟩

/-- Failing vector provider used to witness branch-failure semantics. -/
def vecPFail : Except String (List SearchHit) :=
  Except.error ("vector store unreachable")

/-- Text-only query used to witness branch-failure semantics. -/
def queryTextOnly : RetrievalQuery :=
  ⟨some "love", none, "embeddinggemma", 768, 50, 50, 60, 50, none, true, 3⟩

/-- Failing lexical provider used to witness branch-failure semantics. -/
def lexPFail : Except String (List SearchHit) :=
  Except.error ("lexical store unreachable")

/-- Ordering on renditions by translation label under the code-point key. -/
def renditionLe (a b : Rendition) : Prop :=
  strKey a.translation ≤ strKey b.translation

/-- Concrete joined graph rows used by the endpoint witnesses: two
renditions of John 3:16 sharing one canonical verse key, listed in
non-sorted order. -/
def rowsEx : List GraphRecord :=
  [⟨"43:3:16:", "NIV_43_3_16_", "NIV", "John 3:16", "For God so loved"⟩,
   ⟨"43:3:16:", "ESV_43_3_16_", "ESV", "John 3:16", "For God so loved"⟩]

/-- Total score recorded for an identifier across a fusion table. -/
def scoreOf : List FusedEntry → String → ℚ
  | [], _ => 0
  | e :: rest, id => (if e.verse_id = id then e.score else 0) + scoreOf rest id

/-- Declarative per-identifier sum of one branch walk's contributions,
rank counted from the given start. -/
def branchScore (cfg : FusionConfig) (branch : Branch) :
    List SearchHit → ℕ → String → ℚ
  | [], _, _ => 0
  | h :: t, rank, id =>
    (if h.verse_id = id then contribution cfg branch h rank else 0) +
      branchScore cfg branch t (rank + 1) id

/-- Fusion configuration fixed for the fusion witnesses: rrf with k 60. -/
def fusionCfgEx : FusionConfig :=
  ⟨FusionMethod.rrf, 60, none, ⟨false, 0, 0⟩⟩

/-- Concrete lexical branch list for the fusion witnesses. -/
def lexListEx : List SearchHit :=
  [⟨"A", "alpha", 3⟩, ⟨"B", "beta", 2⟩, ⟨"C", "gamma", 1⟩]

/-- Concrete vector branch list for the fusion witnesses. -/
def vecListEx : List SearchHit :=
  [⟨"B", "beta", 9⟩, ⟨"D", "delta", 8⟩]

/-! Part 7: theorems. -/

/-- Once the cache holds a config, every further load_manifest call
returns it unchanged and runs no further validation. -/
lemma handleRequests_cached (raw : RawManifest) (cfg : ManifestConfig) :
    ∀ (n : ℕ) (s : ProcessState), s.cache = some cfg →
      handleRequests raw n s = (List.replicate n (Except.ok cfg), s) := by
  intro n
  induction n with
  | zero => intro s _; rfl
  | succ n ih =>
    intro s hs
    have hload : load_manifest raw s = (Except.ok cfg, s) := by
      unfold load_manifest
      rw [hs]
    simp [handleRequests, hload, ih s hs, List.replicate_succ]

/-- C4: the manifest is validated exactly once.  A manifest that violates
the FusionConfig schema makes startup fail with that validation error; a
valid manifest is cached by startup with a single validation, and every
later retrieval request resolves the cached config without failing and
without re-validating. -/
theorem manifest_validated_once_at_startup (raw : RawManifest) (n : ℕ) :
    (∀ e, validateManifest raw = Except.error e →
       startupProcess raw = Except.error e) ∧
    (∀ cfg, validateManifest raw = Except.ok cfg →
       startupProcess raw = Except.ok ⟨some cfg, 1⟩ ∧
       (handleRequests raw n ⟨some cfg, 1⟩).1 =
         List.replicate n (Except.ok cfg) ∧
       (handleRequests raw n ⟨some cfg, 1⟩).2.validations = 1) := by
  constructor
  · intro e he
    simp [startupProcess, load_manifest, he]
  · intro cfg hc
    refine ⟨by simp [startupProcess, load_manifest, hc], ?_, ?_⟩
    · rw [handleRequests_cached raw cfg n ⟨some cfg, 1⟩ rfl]
    · rw [handleRequests_cached raw cfg n ⟨some cfg, 1⟩ rfl]

/-- Witness for C4 at concrete manifests: the invalid manifest aborts
startup with its schema error, and after a successful startup three
requests all see the cached config with the validation count still 1. -/
theorem manifest_validated_once_at_startup_witness :
    validateManifest rawManifestBad =
      Except.error ("unknown fusion method") ∧
    startupProcess rawManifestBad = Except.error ("unknown fusion method") ∧
    validateManifest rawManifestGood =
      Except.ok ⟨⟨50, 50, ⟨FusionMethod.rrf, 60, none, ⟨true, 3, 1⟩⟩⟩⟩ ∧
    startupProcess rawManifestGood =
      Except.ok ⟨some ⟨⟨50, 50, ⟨FusionMethod.rrf, 60, none, ⟨true, 3, 1⟩⟩⟩⟩, 1⟩ ∧
    (handleRequests rawManifestGood 3
        ⟨some ⟨⟨50, 50, ⟨FusionMethod.rrf, 60, none, ⟨true, 3, 1⟩⟩⟩⟩, 1⟩).1 =
      List.replicate 3
        (Except.ok ⟨⟨50, 50, ⟨FusionMethod.rrf, 60, none, ⟨true, 3, 1⟩⟩⟩⟩) ∧
    (handleRequests rawManifestGood 3
        ⟨some ⟨⟨50, 50, ⟨FusionMethod.rrf, 60, none, ⟨true, 3, 1⟩⟩⟩⟩, 1⟩).2.validations = 1 := by
  refine ⟨rfl, ?_, rfl, ?_⟩
  · exact (manifest_validated_once_at_startup rawManifestBad 0).1 _ rfl
  · exact (manifest_validated_once_at_startup rawManifestGood 3).2 _ rfl

/-- C3: a retrieval query whose supplied embedding length differs from the
declared dimensionality fails validation with the InvalidQuery client
fault (HTTP 400 carrying the VectorQuery validator's detail) and no
lexical or vector provider call is issued. -/
theorem retrieve_rejects_dim_mismatch (q : RetrievalQuery)
    (cfg : HybridConfig) (lexP vecP : Except String (List SearchHit))
    (expandP : String → Except String GraphExpansion) (e : List ℚ)
    (he : q.embedding = some e) (hlen : (e.length : ℤ) ≠ q.dim) :
    orchestrated_retrieval q cfg lexP vecP expandP =
      Except.error ⟨400, dimMismatchDetail⟩ ∧
    (retrieve q cfg lexP vecP expandP).calls = [] := by
  have hv : validateQuery q = Except.error dimMismatchDetail := by
    cases hqq : q.q <;>
      simp [validateQuery, he, hqq, VectorQuery.validate_embedding_length,
        RetrievalQuery.toVectorQuery, hlen, Except.map]
  constructor
  · simp [orchestrated_retrieval, retrieve, hv, Except.mapError, toHTTPError]
  · simp [retrieve, hv]

/-- Witness for C3: the concrete embedding of length 5 declared at
dimension 768 is rejected with a 400 fault and an empty call trace. -/
theorem retrieve_rejects_dim_mismatch_witness :
    queryDimMismatch.embedding = some [0, 0, 0, 0, 0] ∧
    ((([0, 0, 0, 0, 0] : List ℚ).length : ℤ) ≠ queryDimMismatch.dim) ∧
    (orchestrated_retrieval queryDimMismatch cfgEx lexPEx vecPEx expandPEx =
       Except.error ⟨400, dimMismatchDetail⟩ ∧
     (retrieve queryDimMismatch cfgEx lexPEx vecPEx expandPEx).calls = []) :=
  ⟨rfl, by decide,
    retrieve_rejects_dim_mismatch queryDimMismatch cfgEx lexPEx vecPEx
      expandPEx [0, 0, 0, 0, 0] rfl (by decide)⟩

/-- C6: the retrieval endpoint answers with an InvalidQuery client error
(HTTP 400) exactly when validation rejects the query; in particular a
query with neither free text nor embedding is rejected with the
no-signal detail before any provider call is issued. -/
theorem retrieve_invalid_query_iff (q : RetrievalQuery)
    (cfg : HybridConfig) (lexP vecP : Except String (List SearchHit))
    (expandP : String → Except String GraphExpansion) :
    ((∃ d, orchestrated_retrieval q cfg lexP vecP expandP =
        Except.error ⟨400, d⟩) ↔
      (∃ d, validateQuery q = Except.error d)) ∧
    (q.q = none → q.embedding = none →
      orchestrated_retrieval q cfg lexP vecP expandP =
        Except.error ⟨400, noSignalDetail⟩ ∧
      (retrieve q cfg lexP vecP expandP).calls = []) := by
  constructor
  · constructor
    · rintro ⟨d, hd⟩
      cases hv : validateQuery q with
      | error d2 => exact ⟨d2, rfl⟩
      | ok u =>
        exfalso
        simp only [orchestrated_retrieval, retrieve, hv] at hd
        split at hd <;>
          simp [Except.mapError, toHTTPError] at hd
    · rintro ⟨d, hd⟩
      refine ⟨d, ?_⟩
      simp [orchestrated_retrieval, retrieve, hd, Except.mapError, toHTTPError]
  · intro hq he
    have hv : validateQuery q = Except.error noSignalDetail := by
      simp [validateQuery, hq, he]
    constructor
    · simp [orchestrated_retrieval, retrieve, hv, Except.mapError, toHTTPError]
    · simp [retrieve, hv]

/-- Witness for C6: the concrete no-signal query is answered with the 400
no-signal fault, no provider is called, and the iff instance holds. -/
theorem retrieve_invalid_query_iff_witness :
    (orchestrated_retrieval queryNoSignal cfgEx lexPEx vecPEx expandPEx =
       Except.error ⟨400, noSignalDetail⟩ ∧
     (retrieve queryNoSignal cfgEx lexPEx vecPEx expandPEx).calls = []) ∧
    (∃ d, validateQuery queryNoSignal = Except.error d) :=
  ⟨(retrieve_invalid_query_iff queryNoSignal cfgEx lexPEx vecPEx
      expandPEx).2 rfl rfl,
    (retrieve_invalid_query_iff queryNoSignal cfgEx lexPEx vecPEx
      expandPEx).1.mp
      ⟨noSignalDetail,
        ((retrieve_invalid_query_iff queryNoSignal cfgEx lexPEx vecPEx
          expandPEx).2 rfl rfl).1⟩⟩

/-- C5: whichever branch is the query's sole signal, that branch's
provider failure makes retrieve fail with the server-side
ProviderUnavailable condition (first two parts: embedding-only query with
a failing vector provider, text-only query with a failing lexical
provider); and whichever single provider fails under a query supplying
both signals, retrieve succeeds using only the surviving branch and
FusionInfo carries the degradation marker, making degraded fusion
detectable against the configured method name (last two parts: failing
vector provider surviving lexical branch, failing lexical provider
surviving vector branch). -/
theorem retrieve_branch_failure_semantics (q : RetrievalQuery)
    (cfg : HybridConfig) (lexP vecP : Except String (List SearchHit))
    (expandP : String → Except String GraphExpansion) :
    (∀ e msg, q.q = none → q.embedding = some e →
       validateQuery q = Except.ok () → vecP = Except.error msg →
       (retrieve q cfg lexP vecP expandP).result =
         Except.error
           (RetrieveError.providerUnavailable
             ("all retrieval branches failed"))) ∧
    (∀ t msg, q.q = some t → q.embedding = none →
       validateQuery q = Except.ok () → lexP = Except.error msg →
       (retrieve q cfg lexP vecP expandP).result =
         Except.error
           (RetrieveError.providerUnavailable
             ("all retrieval branches failed"))) ∧
    (∀ t e msg hits, q.q = some t → q.embedding = some e →
       validateQuery q = Except.ok () → vecP = Except.error msg →
       lexP = Except.ok hits →
       ∃ resp, (retrieve q cfg lexP vecP expandP).result = Except.ok resp ∧
         resp.items.map RetrievalHit.hit =
           fuse hits [] cfg.fusion q.top_k.toNat ∧
         resp.fusion.method =
           fusionMethodName cfg.fusion.method ++ degradedSuffix ∧
         resp.fusion.method ≠ fusionMethodName cfg.fusion.method) ∧
    (∀ t e msg hits, q.q = some t → q.embedding = some e →
       validateQuery q = Except.ok () → lexP = Except.error msg →
       vecP = Except.ok hits →
       ∃ resp, (retrieve q cfg lexP vecP expandP).result = Except.ok resp ∧
         resp.items.map RetrievalHit.hit =
           fuse [] hits cfg.fusion q.top_k.toNat ∧
         resp.fusion.method =
           fusionMethodName cfg.fusion.method ++ degradedSuffix ∧
         resp.fusion.method ≠ fusionMethodName cfg.fusion.method) := by
  refine ⟨?_, ?_, ?_, ?_⟩
  · intro e msg hq he hv hvec
    simp [retrieve, hv, hq, he, hvec, survived]
  · intro t msg hq he hv hlex
    simp [retrieve, hv, hq, he, hlex, survived]
  · intro t e msg hits hq he hv hvec hlex
    simp only [retrieve, hv, hq, he, hvec, hlex]
    refine ⟨_, rfl, ?_, ?_, ?_⟩
    · rw [List.map_map]
      exact List.map_id _
    · simp [survived, branchFailed]
    · simp only [survived, branchFailed]
      cases cfg.fusion.method <;> simp [fusionMethodName, degradedSuffix]
  · intro t e msg hits hq he hv hlex hvec
    simp only [retrieve, hv, hq, he, hvec, hlex]
    refine ⟨_, rfl, ?_, ?_, ?_⟩
    · rw [List.map_map]
      exact List.map_id _
    · simp [survived, branchFailed]
    · simp only [survived, branchFailed]
      cases cfg.fusion.method <;> simp [fusionMethodName, degradedSuffix]

/-- Witness for C5 covering all four parts: the vector-only query under a
failing vector provider and the text-only query under a failing lexical
provider both fail with ProviderUnavailable, while the hybrid query under
either single failure succeeds on the surviving branch with the
degradation marker set. -/
theorem retrieve_branch_failure_semantics_witness :
    (retrieve queryVectorOnly cfgEx lexPEx vecPFail expandPEx).result =
      Except.error
        (RetrieveError.providerUnavailable
          ("all retrieval branches failed")) ∧
    (retrieve queryTextOnly cfgEx lexPFail vecPEx expandPEx).result =
      Except.error
        (RetrieveError.providerUnavailable
          ("all retrieval branches failed")) ∧
    (∃ resp,
      (retrieve queryHybrid cfgEx lexPEx vecPFail expandPEx).result =
        Except.ok resp ∧
      resp.items.map RetrievalHit.hit =
        fuse [] [] cfgEx.fusion queryHybrid.top_k.toNat ∧
      resp.fusion.method =
        fusionMethodName cfgEx.fusion.method ++ degradedSuffix ∧
      resp.fusion.method ≠ fusionMethodName cfgEx.fusion.method) ∧
    (∃ resp,
      (retrieve queryHybrid cfgEx lexPFail vecPEx expandPEx).result =
        Except.ok resp ∧
      resp.items.map RetrievalHit.hit =
        fuse [] [] cfgEx.fusion queryHybrid.top_k.toNat ∧
      resp.fusion.method =
        fusionMethodName cfgEx.fusion.method ++ degradedSuffix ∧
      resp.fusion.method ≠ fusionMethodName cfgEx.fusion.method) :=
  ⟨(retrieve_branch_failure_semantics queryVectorOnly cfgEx lexPEx vecPFail
      expandPEx).1 [0, 0] ("vector store unreachable") rfl rfl rfl rfl,
    (retrieve_branch_failure_semantics queryTextOnly cfgEx lexPFail vecPEx
      expandPEx).2.1 "love" ("lexical store unreachable") rfl rfl rfl rfl,
    (retrieve_branch_failure_semantics queryHybrid cfgEx lexPEx vecPFail
      expandPEx).2.2.1 "love" [0, 0] ("vector store unreachable") [] rfl rfl
      rfl rfl rfl,
    (retrieve_branch_failure_semantics queryHybrid cfgEx lexPFail vecPEx
      expandPEx).2.2.2 "love" [0, 0] ("lexical store unreachable") [] rfl rfl
      rfl rfl rfl⟩

/-- C7: replacing the graph expansion provider's answer for one specific
identifier by a failure never changes whether the request succeeds, issues
the same provider calls, and only strips that identifier's parallels to
none while every other hit's expansion and position are unchanged. -/
theorem retrieve_expansion_failure_isolated (q : RetrievalQuery)
    (cfg : HybridConfig) (lexP vecP : Except String (List SearchHit))
    (expandP : String → Except String GraphExpansion) (bad err : String) :
    (retrieve q cfg lexP vecP (overrideExpand expandP bad err)).calls =
      (retrieve q cfg lexP vecP expandP).calls ∧
    (retrieve q cfg lexP vecP (overrideExpand expandP bad err)).result =
      (retrieve q cfg lexP vecP expandP).result.map
        (fun resp =>
          { resp with
              items := resp.items.map
                (fun h =>
                  if h.hit.verse_id = bad then ⟨h.hit, none⟩ else h) }) := by
  cases hv : validateQuery q with
  | error d => simp [retrieve, hv, Except.map]
  | ok u =>
    simp only [retrieve, hv]
    split
    · simp [Except.map]
    · constructor
      · rfl
      · simp only [Except.map, Except.ok.injEq, RetrievalResponse.mk.injEq]
        have hitems := List.map_congr_left (f := fun h : SearchHit =>
            RetrievalHit.mk h
              (if (cfg.fusion.graph_expansion.enabled &&
                    q.include_parallels) = true then
                (overrideExpand expandP bad err h.verse_id).toOption
              else none))
          (g := (fun x : RetrievalHit =>
              if x.hit.verse_id = bad then ⟨x.hit, none⟩ else x) ∘
            fun h : SearchHit =>
              RetrievalHit.mk h
                (if (cfg.fusion.graph_expansion.enabled &&
                      q.include_parallels) = true then
                  (expandP h.verse_id).toOption
                else none))
          (l := fuse
            ((survived (if q.q.isSome = true then some lexP else none)).getD [])
            ((survived
              (if q.embedding.isSome = true then some vecP else none)).getD [])
            cfg.fusion q.top_k.toNat)
          (fun a _ => by
            by_cases hb : a.verse_id = bad <;>
              simp [Function.comp, overrideExpand, hb, Except.toOption])
        rw [List.map_map, ← hitems]
        simp [List.length_map]

/-- C9: every successful parallels lookup, whether by verse identifier or
by canonical verse key, returns its renditions sorted by translation
label. -/
theorem parallels_renditions_sorted (rows : List GraphRecord)
    (vid cvk : String) :
    (∀ resp, parallels_by_verse rows vid = Except.ok resp →
       List.Sorted renditionLe resp.renditions) ∧
    (∀ resp, renditions_by_cvk rows cvk = Except.ok resp →
       List.Sorted renditionLe resp.renditions) := by
  constructor
  · intro resp hresp
    have hs : List.Sorted recLe (parallelsByVerseRecords rows vid) :=
      List.sorted_insertionSort recLe _
    cases hrec : parallelsByVerseRecords rows vid with
    | nil => simp [parallels_by_verse, hrec] at hresp
    | cons r0 rest =>
      simp only [parallels_by_verse, hrec] at hresp
      cases hresp
      rw [hrec] at hs
      exact List.Pairwise.map recToRendition (fun _ _ hab => hab) hs
  · intro resp hresp
    have hs : List.Sorted recLe (renditionsByCvkRecords rows cvk) :=
      List.sorted_insertionSort recLe _
    cases hrec : renditionsByCvkRecords rows cvk with
    | nil => simp [renditions_by_cvk, hrec] at hresp
    | cons r0 rest =>
      simp only [renditions_by_cvk, hrec] at hresp
      cases hresp
      rw [hrec] at hs
      exact List.Pairwise.map recToRendition (fun _ _ hab => hab) hs

/-- C10: the parallels endpoints answer 404 exactly when their graph
query returns no records, and every successful response carries a
non-empty renditions list. -/
theorem parallels_404_iff_no_records (rows : List GraphRecord)
    (vid cvk : String) :
    ((∃ d, parallels_by_verse rows vid = Except.error ⟨404, d⟩) ↔
      parallelsByVerseRecords rows vid = []) ∧
    (∀ resp, parallels_by_verse rows vid = Except.ok resp →
       resp.renditions ≠ []) ∧
    ((∃ d, renditions_by_cvk rows cvk = Except.error ⟨404, d⟩) ↔
      renditionsByCvkRecords rows cvk = []) ∧
    (∀ resp, renditions_by_cvk rows cvk = Except.ok resp →
       resp.renditions ≠ []) := by
  refine ⟨⟨?_, ?_⟩, ?_, ⟨?_, ?_⟩, ?_⟩
  · rintro ⟨d, hd⟩
    cases hrec : parallelsByVerseRecords rows vid with
    | nil => rfl
    | cons r0 rest => simp [parallels_by_verse, hrec] at hd
  · intro hrec
    exact ⟨"verse not found or not linked in graph",
      by simp [parallels_by_verse, hrec]⟩
  · intro resp hresp
    cases hrec : parallelsByVerseRecords rows vid with
    | nil => simp [parallels_by_verse, hrec] at hresp
    | cons r0 rest =>
      simp only [parallels_by_verse, hrec] at hresp
      cases hresp
      simp
  · rintro ⟨d, hd⟩
    cases hrec : renditionsByCvkRecords rows cvk with
    | nil => rfl
    | cons r0 rest => simp [renditions_by_cvk, hrec] at hd
  · intro hrec
    exact ⟨"cvk not found in graph", by simp [renditions_by_cvk, hrec]⟩
  · intro resp hresp
    cases hrec : renditionsByCvkRecords rows cvk with
    | nil => simp [renditions_by_cvk, hrec] at hresp
    | cons r0 rest =>
      simp only [renditions_by_cvk, hrec] at hresp
      cases hresp
      simp

/-- Witness for C9 at the concrete rows: both endpoints succeed and the
sortedness conclusions apply to their responses. -/
theorem parallels_renditions_sorted_witness :
    (parallels_by_verse rowsEx "NIV_43_3_16_" =
      Except.ok
        ⟨"43:3:16:",
          [⟨"ESV_43_3_16_", "ESV", "John 3:16", "For God so loved"⟩,
           ⟨"NIV_43_3_16_", "NIV", "John 3:16", "For God so loved"⟩]⟩) ∧
    List.Sorted renditionLe
      [⟨"ESV_43_3_16_", "ESV", "John 3:16", "For God so loved"⟩,
       ⟨"NIV_43_3_16_", "NIV", "John 3:16", "For God so loved"⟩] ∧
    (renditions_by_cvk rowsEx "43:3:16:" =
      Except.ok
        ⟨"43:3:16:",
          [⟨"ESV_43_3_16_", "ESV", "John 3:16", "For God so loved"⟩,
           ⟨"NIV_43_3_16_", "NIV", "John 3:16", "For God so loved"⟩]⟩) :=
  ⟨rfl,
    (parallels_renditions_sorted rowsEx "NIV_43_3_16_" "43:3:16:").1 _ rfl,
    rfl⟩

/-- Witness for C10 at the concrete rows: an unknown verse identifier
yields the empty query result and hence 404, and the successful lookup's
renditions list is non-empty. -/
theorem parallels_404_iff_no_records_witness :
    (∃ d, parallels_by_verse rowsEx "XXX" = Except.error ⟨404, d⟩) ∧
    ¬ ([⟨"ESV_43_3_16_", "ESV", "John 3:16", "For God so loved"⟩,
        ⟨"NIV_43_3_16_", "NIV", "John 3:16", "For God so loved"⟩] :
         List Rendition) = [] ∧
    (∃ d, renditions_by_cvk rowsEx "9:9:9:" = Except.error ⟨404, d⟩) :=
  ⟨(parallels_404_iff_no_records rowsEx "XXX" "9:9:9:").1.mpr rfl,
    (parallels_404_iff_no_records rowsEx "NIV_43_3_16_" "9:9:9:").2.1 _ rfl,
    (parallels_404_iff_no_records rowsEx "XXX" "9:9:9:").2.2.1.mpr rfl⟩

lemma setRank_verse_id (e : FusedEntry) (b : Branch) (r : ℕ) :
    (setRank e b r).verse_id = e.verse_id := by
  cases b <;> rfl

lemma setRank_score (e : FusedEntry) (b : Branch) (r : ℕ) :
    (setRank e b r).score = e.score := by
  cases b <;> rfl

lemma scoreOf_addContribution (h : SearchHit) (b : Branch) (rank : ℕ)
    (c : ℚ) (id : String) :
    ∀ acc : List FusedEntry,
      scoreOf (addContribution acc h b rank c) id =
        scoreOf acc id + (if h.verse_id = id then c else 0) := by
  intro acc
  induction acc with
  | nil =>
    simp only [addContribution, scoreOf, newEntry, setRank_verse_id,
      setRank_score]
    split_ifs <;> ring
  | cons e rest ih =>
    by_cases he : e.verse_id = h.verse_id
    · simp only [addContribution, if_pos he, scoreOf, setRank_verse_id,
        setRank_score, he]
      split_ifs <;> ring
    · simp only [addContribution, if_neg he, scoreOf, ih]
      ring

lemma scoreOf_accumBranch (cfg : FusionConfig) (b : Branch) (id : String) :
    ∀ (hits : List SearchHit) (rank : ℕ) (acc : List FusedEntry),
      scoreOf (accumBranch cfg b hits rank acc) id =
        scoreOf acc id + branchScore cfg b hits rank id := by
  intro hits
  induction hits with
  | nil => intro rank acc; simp [accumBranch, branchScore]
  | cons h t ih =>
    intro rank acc
    simp only [accumBranch, branchScore, ih, scoreOf_addContribution]
    ring

lemma scoreOf_fuseTable (L V : List SearchHit) (cfg : FusionConfig)
    (id : String) :
    scoreOf (fuseTable L V cfg) id =
      branchScore cfg Branch.lexical L 1 id +
        branchScore cfg Branch.vector V 1 id := by
  simp only [fuseTable, scoreOf_accumBranch]
  simp [scoreOf]

lemma rankIn_eq_none_iff (id : String) :
    ∀ hits : List SearchHit,
      rankIn hits id = none ↔ id ∉ hits.map SearchHit.verse_id := by
  intro hits
  induction hits with
  | nil => simp [rankIn]
  | cons h t ih =>
    by_cases hh : h.verse_id = id
    · simp [rankIn, hh]
    · simp [rankIn, hh, ih, Ne.symm hh]

lemma branchScore_of_not_mem (cfg : FusionConfig) (b : Branch) (id : String) :
    ∀ hits : List SearchHit, id ∉ hits.map SearchHit.verse_id →
      ∀ rank, branchScore cfg b hits rank id = 0 := by
  intro hits
  induction hits with
  | nil => intro _ rank; simp [branchScore]
  | cons h t ih =>
    intro hmem rank
    simp only [List.map_cons, List.mem_cons, not_or] at hmem
    have hne : h.verse_id ≠ id := fun heq => hmem.1 heq.symm
    simp [branchScore, hne, ih hmem.2]

lemma branchScore_of_rankIn (cfg : FusionConfig) (b : Branch) (id : String)
    (hm : cfg.method = FusionMethod.rrf) :
    ∀ hits : List SearchHit, (hits.map SearchHit.verse_id).Nodup →
      ∀ j rank, rankIn hits id = some j →
        branchScore cfg b hits rank id =
          1 / ((cfg.k : ℚ) + j + rank - 1) := by
  intro hits
  induction hits with
  | nil => intro _ j rank hj; simp [rankIn] at hj
  | cons h t ih =>
    intro hnd j rank hj
    simp only [List.map_cons, List.nodup_cons] at hnd
    by_cases hh : h.verse_id = id
    · simp only [rankIn, if_pos hh, Option.some.injEq] at hj
      have ht : branchScore cfg b t (rank + 1) id = 0 :=
        branchScore_of_not_mem cfg b id t (hh ▸ hnd.1) (rank + 1)
      simp only [branchScore, if_pos hh, ht, contribution, hm, ← hj]
      push_cast
      ring_nf
    · simp only [rankIn, if_neg hh, Option.map_eq_some'] at hj
      obtain ⟨j2, hj2, rfl⟩ := hj
      simp only [branchScore, if_neg hh,
        ih hnd.2 j2 (rank + 1) hj2]
      push_cast
      ring_nf

lemma branchScore_one (cfg : FusionConfig) (b : Branch) (id : String)
    (hm : cfg.method = FusionMethod.rrf) (hits : List SearchHit)
    (hnd : (hits.map SearchHit.verse_id).Nodup) :
    branchScore cfg b hits 1 id = rrfContribution (cfg.k : ℚ) hits id := by
  cases hj : rankIn hits id with
  | none =>
    rw [rrfContribution, hj,
      branchScore_of_not_mem cfg b id hits ((rankIn_eq_none_iff id hits).mp hj)]
  | some j =>
    rw [rrfContribution, hj, branchScore_of_rankIn cfg b id hm hits hnd j 1 hj]
    push_cast
    ring_nf

lemma addContribution_keys (h : SearchHit) (b : Branch) (rank : ℕ) (c : ℚ) :
    ∀ acc : List FusedEntry,
      (addContribution acc h b rank c).map FusedEntry.verse_id =
        if h.verse_id ∈ acc.map FusedEntry.verse_id then
          acc.map FusedEntry.verse_id
        else acc.map FusedEntry.verse_id ++ [h.verse_id] := by
  intro acc
  induction acc with
  | nil => simp [addContribution, newEntry, setRank_verse_id]
  | cons e rest ih =>
    by_cases he : e.verse_id = h.verse_id
    · simp [addContribution, if_pos he, setRank_verse_id, he.symm]
    · have hne : ¬ h.verse_id = e.verse_id := fun heq => he heq.symm
      by_cases hmem : h.verse_id ∈ rest.map FusedEntry.verse_id
      · simp [addContribution, if_neg he, ih, hmem, hne]
      · simp [addContribution, if_neg he, ih, hmem, hne]

lemma addContribution_keys_nodup (h : SearchHit) (b : Branch) (rank : ℕ)
    (c : ℚ) (acc : List FusedEntry)
    (hnd : (acc.map FusedEntry.verse_id).Nodup) :
    ((addContribution acc h b rank c).map FusedEntry.verse_id).Nodup := by
  rw [addContribution_keys]
  split_ifs with hmem
  · exact hnd
  · simp [List.nodup_append, hnd, hmem]

lemma accumBranch_keys_nodup (cfg : FusionConfig) (b : Branch) :
    ∀ (hits : List SearchHit) (rank : ℕ) (acc : List FusedEntry),
      (acc.map FusedEntry.verse_id).Nodup →
      ((accumBranch cfg b hits rank acc).map FusedEntry.verse_id).Nodup := by
  intro hits
  induction hits with
  | nil => intro rank acc hnd; exact hnd
  | cons h t ih =>
    intro rank acc hnd
    exact ih (rank + 1) _ (addContribution_keys_nodup h b rank _ acc hnd)

lemma fuseTable_keys_nodup (L V : List SearchHit) (cfg : FusionConfig) :
    ((fuseTable L V cfg).map FusedEntry.verse_id).Nodup := by
  exact accumBranch_keys_nodup cfg Branch.vector V 1 _
    (accumBranch_keys_nodup cfg Branch.lexical L 1 [] (by simp))

lemma addContribution_keys_toFinset (h : SearchHit) (b : Branch) (rank : ℕ)
    (c : ℚ) (acc : List FusedEntry) :
    ((addContribution acc h b rank c).map FusedEntry.verse_id).toFinset =
      insert h.verse_id ((acc.map FusedEntry.verse_id).toFinset) := by
  rw [addContribution_keys]
  split_ifs with hmem
  · ext a
    simp only [List.mem_toFinset, Finset.mem_insert]
    constructor
    · intro ha; exact Or.inr ha
    · rintro (rfl | ha)
      · exact hmem
      · exact ha
  · ext a
    simp only [List.mem_toFinset, Finset.mem_insert, List.mem_append,
      List.mem_singleton]
    tauto

lemma accumBranch_keys_toFinset (cfg : FusionConfig) (b : Branch) :
    ∀ (hits : List SearchHit) (rank : ℕ) (acc : List FusedEntry),
      ((accumBranch cfg b hits rank acc).map FusedEntry.verse_id).toFinset =
        (hits.map SearchHit.verse_id).toFinset ∪
          (acc.map FusedEntry.verse_id).toFinset := by
  intro hits
  induction hits with
  | nil => intro rank acc; simp [accumBranch]
  | cons h t ih =>
    intro rank acc
    rw [accumBranch, ih, addContribution_keys_toFinset]
    ext a
    simp only [Finset.mem_union, List.mem_toFinset, List.map_cons,
      List.mem_cons, Finset.mem_insert]
    tauto

lemma fuseTable_keys_toFinset (L V : List SearchHit) (cfg : FusionConfig) :
    ((fuseTable L V cfg).map FusedEntry.verse_id).toFinset =
      (((L ++ V).map SearchHit.verse_id)).toFinset := by
  rw [fuseTable, accumBranch_keys_toFinset, accumBranch_keys_toFinset]
  ext a
  simp only [Finset.mem_union, List.mem_toFinset, List.map_append,
    List.mem_append, List.map_nil, List.not_mem_nil, or_false]
  tauto

lemma scoreOf_of_not_mem (id : String) :
    ∀ table : List FusedEntry, id ∉ table.map FusedEntry.verse_id →
      scoreOf table id = 0 := by
  intro table
  induction table with
  | nil => intro _; rfl
  | cons e rest ih =>
    intro hmem
    simp only [List.map_cons, List.mem_cons, not_or] at hmem
    have hne : ¬ e.verse_id = id := fun heq => hmem.1 heq.symm
    simp [scoreOf, hne, ih hmem.2]

lemma score_eq_scoreOf :
    ∀ table : List FusedEntry, (table.map FusedEntry.verse_id).Nodup →
      ∀ e ∈ table, e.score = scoreOf table e.verse_id := by
  intro table
  induction table with
  | nil => intro _ e he; simp at he
  | cons f rest ih =>
    intro hnd e he
    simp only [List.map_cons, List.nodup_cons] at hnd
    rcases List.mem_cons.mp he with rfl | hmem
    · simp [scoreOf, scoreOf_of_not_mem e.verse_id rest hnd.1]
    · have hne : ¬ f.verse_id = e.verse_id := by
        intro heq
        exact hnd.1 (heq ▸ List.mem_map_of_mem FusedEntry.verse_id hmem)
      simp [scoreOf, hne, ih hnd.2 e hmem]

lemma attachIdx_map_fst :
    ∀ (t : List FusedEntry) (i : ℕ), (attachIdx t i).map Prod.fst = t := by
  intro t
  induction t with
  | nil => intro i; rfl
  | cons e rest ih => intro i; simp [attachIdx, ih]

lemma mem_fuseEntries_table (L V : List SearchHit) (cfg : FusionConfig)
    (p : FusedEntry × ℕ) (hp : p ∈ fuseEntries L V cfg) :
    p.1 ∈ fuseTable L V cfg := by
  have hmem : p ∈ attachIdx (fuseTable L V cfg) 0 :=
    (List.perm_insertionSort (entryLe cfg) _).subset hp
  have : p.1 ∈ (attachIdx (fuseTable L V cfg) 0).map Prod.fst :=
    List.mem_map_of_mem Prod.fst hmem
  rwa [attachIdx_map_fst] at this

/-- C1: under rrf fusion every hit returned by fuse carries a fused score
equal to the sum, over the branches in which its identifier appears, of
1 / (k + rank) at the identifier's 1-based rank in that branch, an absent
branch contributing 0 and both branches accumulating. -/
theorem fuse_rrf_score_formula (L V : List SearchHit) (cfg : FusionConfig)
    (n : ℕ) (hm : cfg.method = FusionMethod.rrf)
    (hL : (L.map SearchHit.verse_id).Nodup)
    (hV : (V.map SearchHit.verse_id).Nodup) :
    ∀ hit ∈ fuse L V cfg n,
      hit.score = rrfContribution (cfg.k : ℚ) L hit.verse_id +
        rrfContribution (cfg.k : ℚ) V hit.verse_id := by
  intro hit hmem
  obtain ⟨p, hp, rfl⟩ := List.mem_map.mp hmem
  have hp2 : p ∈ fuseEntries L V cfg := (List.take_sublist n _).subset hp
  have htab : p.1 ∈ fuseTable L V cfg := mem_fuseEntries_table L V cfg p hp2
  have hscore : p.1.score = scoreOf (fuseTable L V cfg) p.1.verse_id :=
    score_eq_scoreOf _ (fuseTable_keys_nodup L V cfg) _ htab
  show p.1.score = _
  rw [hscore, scoreOf_fuseTable,
    branchScore_one cfg Branch.lexical _ hm L hL,
    branchScore_one cfg Branch.vector _ hm V hV]
  rfl

/-- Witness for C1 at the concrete branch lists: both branch identifier
lists are duplicate-free under the rrf config, and the score formula
applies to every fused hit. -/
theorem fuse_rrf_score_formula_witness :
    fusionCfgEx.method = FusionMethod.rrf ∧
    (lexListEx.map SearchHit.verse_id).Nodup ∧
    (vecListEx.map SearchHit.verse_id).Nodup ∧
    ∀ hit ∈ fuse lexListEx vecListEx fusionCfgEx 2,
      hit.score = rrfContribution ((60 : ℤ) : ℚ) lexListEx hit.verse_id +
        rrfContribution ((60 : ℤ) : ℚ) vecListEx hit.verse_id :=
  ⟨rfl, by decide, by decide,
    fuse_rrf_score_formula lexListEx vecListEx fusionCfgEx 2 rfl
      (by decide) (by decide)⟩

lemma attachIdx_length :
    ∀ (t : List FusedEntry) (i : ℕ), (attachIdx t i).length = t.length := by
  intro t
  induction t with
  | nil => intro i; rfl
  | cons e rest ih => intro i; simp [attachIdx, ih]

lemma fuseEntries_length (L V : List SearchHit) (cfg : FusionConfig) :
    (fuseEntries L V cfg).length = (fuseTable L V cfg).length := by
  rw [fuseEntries, List.length_insertionSort, attachIdx_length]

lemma entryLe_score (cfg : FusionConfig) (a b : FusedEntry × ℕ)
    (hle : entryLe cfg a b) : b.1.score ≤ a.1.score := by
  rcases (Prod.Lex.le_iff _ _).mp hle with hlt | ⟨heq, _⟩
  · have : -a.1.score ≤ -b.1.score := le_of_lt hlt
    linarith
  · have : -a.1.score = -b.1.score := heq
    linarith

lemma fuseEntries_keys_perm (L V : List SearchHit) (cfg : FusionConfig) :
    ((fuseEntries L V cfg).map (fun p : FusedEntry × ℕ => p.1.verse_id)).Perm
      ((fuseTable L V cfg).map FusedEntry.verse_id) := by
  have hperm := (List.perm_insertionSort (entryLe cfg)
    (attachIdx (fuseTable L V cfg) 0)).map
      (fun p : FusedEntry × ℕ => p.1.verse_id)
  refine hperm.trans ?_
  have hfst := attachIdx_map_fst (fuseTable L V cfg) 0
  have heq : (attachIdx (fuseTable L V cfg) 0).map
        (fun p : FusedEntry × ℕ => p.1.verse_id) =
      (fuseTable L V cfg).map FusedEntry.verse_id := by
    rw [show (fun p : FusedEntry × ℕ => p.1.verse_id) =
        FusedEntry.verse_id ∘ Prod.fst from rfl, ← List.map_map, hfst]
  rw [heq]

/-- C2: fuse never errors (both branches empty give the empty list), its
output identifiers are deduplicated and drawn from the union of the two
input branches, the output is sorted non-increasing by fused score, and
the output length is exactly the minimum of top_k and the number of
distinct identifiers across both branches. -/
theorem fuse_output_contract (L V : List SearchHit) (cfg : FusionConfig)
    (n : ℕ) (hn : 1 ≤ n) :
    fuse [] [] cfg n = [] ∧
    ((fuse L V cfg n).map SearchHit.verse_id).Nodup ∧
    (∀ hit ∈ fuse L V cfg n,
      hit.verse_id ∈ (L ++ V).map SearchHit.verse_id) ∧
    List.Sorted (fun a b : SearchHit => b.score ≤ a.score)
      (fuse L V cfg n) ∧
    (fuse L V cfg n).length =
      min n ((L ++ V).map SearchHit.verse_id).toFinset.card := by
  refine ⟨?_, ?_, ?_, ?_, ?_⟩
  · simp [fuse, fuseEntries, fuseTable, accumBranch, attachIdx]
  · have hkeys : (fuse L V cfg n).map SearchHit.verse_id =
        ((fuseEntries L V cfg).take n).map
          (fun p : FusedEntry × ℕ => p.1.verse_id) := by
      rw [fuse, List.map_map]
      rfl
    rw [hkeys, List.map_take]
    exact ((fuseEntries_keys_perm L V cfg).nodup_iff.mpr
      (fuseTable_keys_nodup L V cfg)).sublist
        (List.take_sublist n _)
  · intro hit hmem
    obtain ⟨p, hp, rfl⟩ := List.mem_map.mp hmem
    have hp2 : p ∈ fuseEntries L V cfg := (List.take_sublist n _).subset hp
    have htab : p.1 ∈ fuseTable L V cfg := mem_fuseEntries_table L V cfg p hp2
    have hmem2 : p.1.verse_id ∈ (fuseTable L V cfg).map FusedEntry.verse_id :=
      List.mem_map_of_mem FusedEntry.verse_id htab
    have : p.1.verse_id ∈
        ((fuseTable L V cfg).map FusedEntry.verse_id).toFinset :=
      List.mem_toFinset.mpr hmem2
    rw [fuseTable_keys_toFinset] at this
    exact List.mem_toFinset.mp this
  · have hs : List.Sorted (entryLe cfg) (fuseEntries L V cfg) :=
      List.sorted_insertionSort (entryLe cfg) _
    have hs2 : List.Sorted (entryLe cfg) ((fuseEntries L V cfg).take n) :=
      hs.sublist (List.take_sublist n _)
    exact List.Pairwise.map toSearchHit
      (fun a b hab => entryLe_score cfg a b hab) hs2
  · rw [fuse, List.length_map, List.length_take, fuseEntries_length]
    congr 1
    have hnd := fuseTable_keys_nodup L V cfg
    calc (fuseTable L V cfg).length
        = ((fuseTable L V cfg).map FusedEntry.verse_id).length := by
          rw [List.length_map]
      _ = ((fuseTable L V cfg).map FusedEntry.verse_id).toFinset.card :=
          (List.toFinset_card_of_nodup hnd).symm
      _ = ((L ++ V).map SearchHit.verse_id).toFinset.card := by
          rw [fuseTable_keys_toFinset]

/-- Witness for C2 at the concrete branch lists with top_k 2: the bound
1 at most 2 holds and all four output conclusions apply. -/
theorem fuse_output_contract_witness :
    (1 : ℕ) ≤ 2 ∧
    ((fuse lexListEx vecListEx fusionCfgEx 2).map SearchHit.verse_id).Nodup ∧
    (∀ hit ∈ fuse lexListEx vecListEx fusionCfgEx 2,
      hit.verse_id ∈ (lexListEx ++ vecListEx).map SearchHit.verse_id) ∧
    List.Sorted (fun a b : SearchHit => b.score ≤ a.score)
      (fuse lexListEx vecListEx fusionCfgEx 2) ∧
    (fuse lexListEx vecListEx fusionCfgEx 2).length =
      min 2 ((lexListEx ++ vecListEx).map SearchHit.verse_id).toFinset.card :=
  ⟨by decide,
    (fuse_output_contract lexListEx vecListEx fusionCfgEx 2 (by decide)).2⟩

lemma attachIdx_snd_bound :
    ∀ (t : List FusedEntry) (i : ℕ) (p : FusedEntry × ℕ),
      p ∈ attachIdx t i → i ≤ p.2 := by
  intro t
  induction t with
  | nil => intro i p hp; simp [attachIdx] at hp
  | cons e rest ih =>
    intro i p hp
    rcases List.mem_cons.mp hp with rfl | hmem
    · exact le_refl _
    · exact le_trans (Nat.le_succ i) (ih (i + 1) p hmem)

lemma attachIdx_snd_nodup :
    ∀ (t : List FusedEntry) (i : ℕ),
      ((attachIdx t i).map Prod.snd).Nodup := by
  intro t
  induction t with
  | nil => intro i; simp [attachIdx]
  | cons e rest ih =>
    intro i
    simp only [attachIdx, List.map_cons, List.nodup_cons]
    refine ⟨?_, ih (i + 1)⟩
    intro hmem
    obtain ⟨p, hp, hpi⟩ := List.mem_map.mp hmem
    have := attachIdx_snd_bound rest (i + 1) p hp
    omega

lemma sortKey_inj_idx (cfg : FusionConfig) (a b : FusedEntry × ℕ)
    (h : sortKey cfg a = sortKey cfg b) : a.2 = b.2 := by
  simp only [sortKey, toLex_inj, Prod.mk.injEq] at h
  exact h.2.2.2

lemma fuseEntries_pairwise_lt (L V : List SearchHit) (cfg : FusionConfig) :
    List.Pairwise (entryLt cfg) (fuseEntries L V cfg) := by
  have hs : List.Sorted (entryLe cfg) (fuseEntries L V cfg) :=
    List.sorted_insertionSort (entryLe cfg) _
  have hnd : ((fuseEntries L V cfg).map Prod.snd).Nodup := by
    refine ((List.perm_insertionSort (entryLe cfg)
      (attachIdx (fuseTable L V cfg) 0)).map Prod.snd).nodup_iff.mpr ?_
    exact attachIdx_snd_nodup _ 0
  have hne : List.Pairwise (fun a b : FusedEntry × ℕ => a.2 ≠ b.2)
      (fuseEntries L V cfg) := List.pairwise_map.mp hnd
  refine (hs.and hne).imp ?_
  rintro a b ⟨hle, hsnd⟩
  exact lt_of_le_of_ne hle (fun heq => hsnd (sortKey_inj_idx cfg a b heq))

/-- C8: fuse is deterministic, and its output order is the unique order
compatible with the tie-break key: any permutation of the fusion entries
that is sorted by the strict key order (higher fused score first, then
presence in both branches, then rank in the priority branch, then stable
discovery order) is exactly the list fuse produces, so ties are never
resolved by arbitrary iteration order. -/
theorem fuse_deterministic_order (L V : List SearchHit) (cfg : FusionConfig)
    (out : List (FusedEntry × ℕ))
    (hperm : out.Perm (fuseEntries L V cfg))
    (hsorted : List.Pairwise (entryLt cfg) out) :
    out = fuseEntries L V cfg ∧
    ∀ n : ℕ, fuse L V cfg n = (out.take n).map toSearchHit := by
  have heq : out = fuseEntries L V cfg :=
    List.eq_of_perm_of_sorted hperm hsorted (fuseEntries_pairwise_lt L V cfg)
  exact ⟨heq, fun n => by rw [fuse, heq]⟩

/-- Witness for C8 at a concrete input: the empty fusion entry list is a
key-sorted permutation of the entries of the empty branches, and the
uniqueness conclusion applies to it. -/
theorem fuse_deterministic_order_witness :
    List.Perm ([] : List (FusedEntry × ℕ)) (fuseEntries [] [] fusionCfgEx) ∧
    ([] : List (FusedEntry × ℕ)) = fuseEntries [] [] fusionCfgEx ∧
    fuse [] [] fusionCfgEx 2 =
      ((([] : List (FusedEntry × ℕ)).take 2).map toSearchHit) := by
  have h0 : fuseEntries [] [] fusionCfgEx = [] := rfl
  have hperm : List.Perm ([] : List (FusedEntry × ℕ))
      (fuseEntries [] [] fusionCfgEx) := by
    rw [h0]
  have hmain := fuse_deterministic_order [] [] fusionCfgEx [] hperm
    List.Pairwise.nil
  exact ⟨hperm, hmain.1, hmain.2 2⟩

end DivineData
